import Mathlib

/-!
# Verification of the Allen pseudomouse Ca-movie dataset pipeline

Shallow embedding of `cebra/datasets/allen/ca_movie_decoding.py` and
`cebra/datasets/allen/ca_movie.py`: cross-session neuron alignment,
pseudo-population assembly, deterministic seeded sampling, and the
train/test temporal split.

Matrices (`neuron × time` trace arrays) are embedded as `List (List Int)`,
row-major.  Operations that raise exceptions in the source return `Option`
or `Except`.
-/

namespace CaMovie

/-- A `neuron × time` trace matrix, row-major. -/
abbrev Mat := List (List Int)

/-! ## Seeded pseudo-random generator

Modelled from the spec: `numpy.random.Generator(PCG64(seed))` is an external
collaborator; per the spec, bit-exact reproduction of the original generator
is not required, only within-implementation determinism (same seed ⇒ same
output).  We model it as a 64-bit linear-congruential state machine seeded
solely from the integer seed. -/

/-- Generator state: a 64-bit word evolved by a linear-congruential step. -/
structure GenState where
  state : Nat
deriving Repr, DecidableEq

/-- Modelled from the spec: construct a fresh generator from a seed, as
`Generator(PCG64(seed))` does in the source; the state depends only on the
seed. -/
def mkGenerator (seed : Nat) : GenState :=
  ⟨(seed * 6364136223846793005 + 1442695040888963407) % 2 ^ 64⟩

/-- Modelled from the spec: advance the generator one step and emit a
pseudo-random word. -/
def GenState.next (g : GenState) : Nat × GenState :=
  let s := (g.state * 6364136223846793005 + 1442695040888963407) % 2 ^ 64
  ((s / 2 ^ 33) % 2 ^ 31, ⟨s⟩)

/-! ## DeterministicSampler: with-replacement choice

`AllenCaMoviesDataset._sample_neurons`:
`Generator(PCG64(self.seed)).choice(np.arange(N), size=num_neurons)` —
a with-replacement draw of `num_neurons` indices from `[0, N)`. -/

/-- Draw `k` indices from `[0, N)` with replacement, threading the generator
state. -/
def choiceAux : Nat → GenState → Nat → List Nat
  | 0, _, _ => []
  | k + 1, g, N =>
    let (v, g') := g.next
    v % N :: choiceAux k g' N

/-- `WithReplacementChoice(seed, N, k)`: the with-replacement draw of `k`
indices from `[0, N)` made by `_sample_neurons` with a generator freshly
seeded from `seed`. -/
def withReplacementChoice (seed N k : Nat) : List Nat :=
  choiceAux k (mkGenerator seed) N

/-- `AllenCaMoviesDataset._sample_neurons`: the population is
`np.arange(pseudo_mice.shape[0])`, so the draw depends on the pseudomouse
matrix only through its row count. -/
def sampleNeurons (seed k : Nat) (pseudoMice : Mat) : List Nat :=
  withReplacementChoice seed pseudoMice.length k

theorem choiceAux_length (k : Nat) (g : GenState) (N : Nat) :
    (choiceAux k g N).length = k := by
  induction k generalizing g with
  | zero => rfl
  | succ k ih => simp [choiceAux, ih]

theorem choiceAux_lt (k : Nat) (g : GenState) (N : Nat) (hN : 0 < N) :
    ∀ x ∈ choiceAux k g N, x < N := by
  induction k generalizing g with
  | zero => intro x hx; simp [choiceAux] at hx
  | succ k ih =>
    intro x hx
    simp only [choiceAux, List.mem_cons] at hx
    rcases hx with h | h
    · exact h ▸ Nat.mod_lt _ hN
    · exact ih _ x h

/-! ## DeterministicSampler: disjoint permutation split

`AllenCaMoviesDisjointDataset._sample_neurons`:
`permuted = Generator(PCG64(seed)).permutation(N)`;
`np.array_split(permuted, 2)[group][:num_neurons]`. -/

/-- Modelled from the spec: a seeded shuffle (the source's
`Generator.permutation` is external library code).  Repeatedly extracts a
pseudo-randomly chosen element from the remaining list; the fuel argument
(instantiated to the list length) makes the recursion structural. -/
def shuffleFuel : Nat → GenState → List Nat → List Nat
  | 0, _, _ => []
  | _ + 1, _, [] => []
  | fuel + 1, g, x :: xs =>
    (x :: xs).getD (g.next.1 % (x :: xs).length) 0 ::
      shuffleFuel fuel g.next.2
        ((x :: xs).eraseIdx (g.next.1 % (x :: xs).length))

/-- Modelled from the spec: `Generator(PCG64(seed)).permutation(N)` — a
seeded permutation of `[0, N)`. -/
def npPermutation (seed N : Nat) : List Nat :=
  shuffleFuel N (mkGenerator seed) (List.range N)

/-- `np.array_split(l, 2)[group]`: split into two contiguous halves, the
first of size `⌈N/2⌉`; `group` selects the half (`group ∈ {0, 1}` in the
source; any other group raises there). -/
def arraySplit2 (l : List Nat) (group : Nat) : List Nat :=
  let h := (l.length + 1) / 2
  match group with
  | 0 => l.take h
  | 1 => l.drop h
  | _ => []

/-- `AllenCaMoviesDisjointDataset._sample_neurons`:
`np.array_split(permutation(N), 2)[group][:k]`. -/
def disjointSampleNeurons (seed N k group : Nat) : List Nat :=
  (arraySplit2 (npPermutation seed N) group).take k

/-- Extracting one pseudo-randomly chosen element at a time permutes the
list: with enough fuel the shuffle output is a permutation of its input. -/
theorem shuffleFuel_perm (fuel : Nat) (g : GenState) (l : List Nat)
    (hfuel : l.length ≤ fuel) : List.Perm (shuffleFuel fuel g l) l := by
  induction fuel generalizing g l with
  | zero =>
    rw [Nat.le_zero, List.length_eq_zero] at hfuel
    subst hfuel; rw [shuffleFuel]
  | succ n ih =>
    match l with
    | [] => rw [shuffleFuel]
    | x :: xs =>
      rw [shuffleFuel]
      have hi : (g.next.1 % (x :: xs).length) < (x :: xs).length :=
        Nat.mod_lt _ (Nat.succ_pos _)
      have hd : (x :: xs).getD (g.next.1 % (x :: xs).length) 0 =
          (x :: xs).get ⟨g.next.1 % (x :: xs).length, hi⟩ := by
        rw [List.getD_eq_getElem _ _ hi]; rfl
      have h1 : List.Perm
          ((x :: xs).erase ((x :: xs).get ⟨g.next.1 % (x :: xs).length, hi⟩))
          ((x :: xs).eraseIdx (g.next.1 % (x :: xs).length)) := by
        simpa using List.erase_getElem hi
      have h2 : List.Perm (x :: xs)
          (((x :: xs).get ⟨g.next.1 % (x :: xs).length, hi⟩) ::
            (x :: xs).erase ((x :: xs).get ⟨g.next.1 % (x :: xs).length, hi⟩)) :=
        List.perm_cons_erase (List.get_mem _ _ _)
      have h3 : List.Perm (shuffleFuel n g.next.2 ((x :: xs).eraseIdx
          (g.next.1 % (x :: xs).length)))
          ((x :: xs).eraseIdx (g.next.1 % (x :: xs).length)) := by
        refine ih _ _ ?_
        have hle := List.length_eraseIdx_add_one hi
        omega
      rw [hd]
      exact ((h3.cons _).trans ((h1.symm.cons _))).trans h2.symm

/-- The seeded permutation is a permutation of `[0, N)`. -/
theorem npPermutation_perm (seed N : Nat) :
    List.Perm (npPermutation seed N) (List.range N) :=
  shuffleFuel_perm _ _ _ (by rw [List.length_range])

theorem npPermutation_length (seed N : Nat) :
    (npPermutation seed N).length = N := by
  simpa using (npPermutation_perm seed N).length_eq

theorem npPermutation_nodup (seed N : Nat) :
    (npPermutation seed N).Nodup :=
  (npPermutation_perm seed N).nodup_iff.mpr (List.nodup_range N)

/-! ## SessionIndexAligner

`_get_pseudo_mice` (both `ca_movie.py` and `ca_movie_decoding.py`):
intersect the three sessions' neuron-id lists and derive one (independently
sorted) position list per session.  The source first decodes each id list
from a bracketed string via `_convert_to_nums`; the spec declares
table-file parsing out-of-scope glue, so sessions are embedded with their
id lists already decoded to `List Int`. -/

/-- `set.intersection(set(n1), set(n2), set(n3))`: one fixed enumeration of
the common id set (the source iterates a Python `set`; every derived
position list is sorted afterwards, so the result does not depend on the
enumeration order chosen here). -/
def commonNeurons (n1 n2 n3 : List Int) : List Int :=
  n1.dedup.filter (fun x => x ∈ n2 ∧ x ∈ n3)

/-- `[ids.index(x) for x in common]` followed by `.sort()`: the
position-in-session list for one session, sorted ascending in place. -/
def positionList (ids : List Int) (common : List Int) : List Nat :=
  (common.map (fun x => ids.indexOf x)).insertionSort (· ≤ ·)

/-- Lexicographic comparison of character lists by code point — the order
numpy's string sort uses. -/
def charListLe : List Char → List Char → Bool
  | [], _ => true
  | _ :: _, [] => false
  | a :: as, b :: bs =>
    if a.toNat < b.toNat then true
    else if b.toNat < a.toNat then false
    else charListLe as bs

/-- String comparison by code points, as numpy compares the session-type
tags. -/
def strLe (a b : String) : Bool :=
  charListLe a.data b.data

/-- `np.array(list(sessions)).argsort()`: indices that sort the
session-type tags ascending. -/
def argsort (tags : List String) : List Nat :=
  (List.range tags.length).insertionSort
    (fun i j => strLe (tags.getD i "") (tags.getD j "") = true)

theorem positionList_length (ids common : List Int) :
    (positionList ids common).length = common.length := by
  unfold positionList
  rw [(List.perm_insertionSort _ _).length_eq, List.length_map]

theorem positionList_sorted (ids common : List Int) :
    (positionList ids common).Sorted (· ≤ ·) :=
  List.sorted_insertionSort _ _

theorem argsort_perm (tags : List String) :
    List.Perm (argsort tags) (List.range tags.length) :=
  List.perm_insertionSort _ _

/-! ## Metadata table (`data_summary.csv`) and pseudo-population assembly

`AllenCaMoviesDataset._get_pseudo_mice` / `AllenCaMovieDataset._get_pseudo_mice`. -/

/-- One row of the summary table: container id (`exp`), anatomical target,
genetic (cre) line, session-type tag, and the neuron-id list (string-encoded
in the csv; decoding it is out-of-scope table parsing, so it is embedded
already decoded). -/
structure SummaryRow where
  exp : Int
  target : String
  cre_line : String
  session_type : String
  neurons : List Int
deriving Repr, DecidableEq

/-- Whether the character list `s` starts with the pattern `pat`. -/
def startsWithChars : List Char → List Char → Bool
  | _, [] => true
  | [], _ :: _ => false
  | a :: as, b :: bs => (a.toNat == b.toNat) && startsWithChars as bs

/-- Whether the pattern occurs anywhere in the character list. -/
def hasSubstrChars : List Char → List Char → Bool
  | [], pat => pat.isEmpty
  | a :: as, pat => startsWithChars (a :: as) pat || hasSubstrChars as pat

/-- `pandas.Series.str.contains(pat)` for a single cell: substring test. -/
def containsSubstr (s pat : String) : Bool :=
  hasSubstrChars s.data pat.data

/-- The cre-line exclusion applied in `area_filtered`:
`str.contains("SSt") | str.contains("Pvalb") | str.contains("Vip")`. -/
def creExcluded (cre : String) : Bool :=
  containsSubstr cre "SSt" || containsSubstr cre "Pvalb" ||
    containsSubstr cre "Vip"

/-- The `area_filtered` dataframe: rows whose container is present on disk,
whose target is the requested area, and whose cre line contains none of the
excluded markers. -/
def areaFiltered (summary : List SummaryRow) (expContainers : List Int)
    (area : String) : List SummaryRow :=
  summary.filter (fun r =>
    decide (r.exp ∈ expContainers) && (r.target == area) &&
      !(creExcluded r.cre_line))

/-- `summary[summary["exp"] == exp_container]`: the rows of one container,
in table order, drawn from the **unfiltered** summary (as in the source). -/
def containerRows (summary : List SummaryRow) (e : Int) : List SummaryRow :=
  summary.filter (fun r => r.exp == e)

/-- `set(area_filtered["exp"])`: the container ids iterated by the assembly
loop (one fixed enumeration; a Python set's iteration order only affects
the block order of the result, not its row count). -/
def includedExps (summary : List SummaryRow) (expContainers : List Int)
    (area : String) : List Int :=
  ((areaFiltered summary expContainers area).map (fun r => r.exp)).dedup

/-- numpy fancy row indexing `m[idx, :]`; an out-of-range index raises. -/
def selectRows (m : Mat) (idx : List Nat) : Option Mat :=
  if idx.all (fun j => j < m.length) then
    some (idx.map (fun j => m.getD j []))
  else none

/-- The `for n, i in enumerate(seq_sessions)` loop body: session block `n`
of the container's mat file, taken at the position list numbered `i`. -/
def pickBlocks (traces : List Mat) (indices : List (List Nat)) :
    List (Nat × Nat) → Option (List Mat)
  | [] => some []
  | (n, i) :: rest => do
    let m ← traces[n]?
    let idx ← indices[i]?
    let blk ← selectRows m idx
    let bs ← pickBlocks traces indices rest
    pure (blk :: bs)

/-- One container's aligned session blocks, concatenated: intersect the
three sessions' neuron-id lists, derive the three sorted position lists,
and select those rows from each session in mat-file order.  A container
with other than exactly three summary rows raises in the source
(`iloc` / list-index errors), hence `none`. -/
def containerPseudo (summary : List SummaryRow) (traces : List Mat)
    (e : Int) : Option Mat :=
  match containerRows summary e with
  | [r0, r1, r2] => do
    let common := commonNeurons r0.neurons r1.neurons r2.neurons
    let seq := argsort [r0.session_type, r1.session_type, r2.session_type]
    let indices := [positionList r0.neurons common,
      positionList r1.neurons common, positionList r2.neurons common]
    let bs ← pickBlocks traces indices seq.enum
    pure bs.flatten
  | _ => none

/-- `|CommonNeuronSet|` for one container, read off the same three summary
rows `containerPseudo` uses. -/
def containerCommonCount (summary : List SummaryRow) (e : Int) : Nat :=
  match containerRows summary e with
  | [r0, r1, r2] => (commonNeurons r0.neurons r1.neurons r2.neurons).length
  | _ => 0

/-- `np.concatenate(blocks)`: vertical concatenation; raises on an empty
block list and on inconsistent column counts. -/
def vconcat (blocks : List Mat) : Option Mat :=
  if blocks.isEmpty then none
  else if ((blocks.flatten.map (fun r => r.length)).dedup.length ≤ 1) then
    some blocks.flatten
  else none

/-- The `for exp_container in set(area_filtered["exp"])` loop: one aligned
block per included container. -/
def buildContainers (summary : List SummaryRow) (traces : Int → List Mat) :
    List Int → Option (List Mat)
  | [] => some []
  | e :: es => do
    let b ← containerPseudo summary (traces e) e
    let bs ← buildContainers summary traces es
    pure (b :: bs)

/-- `_get_pseudo_mice(area, num_movie)`: assemble the pseudo-population
matrix from the summary table, the container ids found on disk, and the
per-container trace store. -/
def getPseudoMice (summary : List SummaryRow) (expContainers : List Int)
    (area : String) (traces : Int → List Mat) : Option Mat := do
  let bs ← buildContainers summary traces
    (includedExps summary expContainers area)
  vconcat bs

/-- Sum of the common-neuron-set sizes over the included containers. -/
def sumCommonCounts (summary : List SummaryRow) (expContainers : List Int)
    (area : String) : Nat :=
  ((includedExps summary expContainers area).map
    (containerCommonCount summary)).sum

theorem selectRows_length {m : Mat} {idx : List Nat} {b : Mat}
    (h : selectRows m idx = some b) : b.length = idx.length := by
  unfold selectRows at h
  split at h
  · cases h; simp
  · cases h

theorem pickBlocks_flatten_length {traces : List Mat}
    {indices : List (List Nat)} {L : Nat}
    (hind : ∀ (i : Nat) (l : List Nat), indices[i]? = some l → l.length = L) :
    ∀ pairs bs, pickBlocks traces indices pairs = some bs →
      bs.flatten.length = pairs.length * L := by
  intro pairs
  induction pairs with
  | nil =>
    intro bs h
    simp only [pickBlocks, Option.some.injEq] at h
    subst h; simp
  | cons p rest ih =>
    intro bs h
    obtain ⟨n, i⟩ := p
    simp only [pickBlocks, Option.bind_eq_bind, Option.bind_eq_some,
      Option.pure_def, Option.some.injEq] at h
    obtain ⟨m, _, idx, hidx, blk, hblk, bs', hbs', rfl⟩ := h
    have h1 : blk.length = L := by
      rw [selectRows_length hblk]; exact hind i idx hidx
    have h2 := ih bs' hbs'
    simp [List.length_append, h1, h2, Nat.succ_mul, Nat.add_comm]

theorem containerPseudo_length {summary : List SummaryRow} {traces : List Mat}
    {e : Int} {B : Mat} (h : containerPseudo summary traces e = some B) :
    B.length = 3 * containerCommonCount summary e := by
  unfold containerPseudo at h
  split at h
  next r0 r1 r2 heq =>
    simp only [Option.bind_eq_bind, Option.bind_eq_some, Option.pure_def,
      Option.some.injEq] at h
    obtain ⟨bs, hbs, rfl⟩ := h
    have hseq :
        (argsort [r0.session_type, r1.session_type, r2.session_type]).length
          = 3 := by
      simpa using (argsort_perm
        [r0.session_type, r1.session_type, r2.session_type]).length_eq
    have hind : ∀ (i : Nat) (l : List Nat),
        ([positionList r0.neurons (commonNeurons r0.neurons r1.neurons r2.neurons),
          positionList r1.neurons (commonNeurons r0.neurons r1.neurons r2.neurons),
          positionList r2.neurons (commonNeurons r0.neurons r1.neurons r2.neurons)] :
            List (List Nat))[i]? = some l →
        l.length = (commonNeurons r0.neurons r1.neurons r2.neurons).length := by
      intro i l hl
      match i with
      | 0 =>
        simp only [List.getElem?_cons_zero, Option.some.injEq] at hl
        rw [← hl]; exact positionList_length _ _
      | 1 =>
        simp only [List.getElem?_cons_succ, List.getElem?_cons_zero,
          Option.some.injEq] at hl
        rw [← hl]; exact positionList_length _ _
      | 2 =>
        simp only [List.getElem?_cons_succ, List.getElem?_cons_zero,
          Option.some.injEq] at hl
        rw [← hl]; exact positionList_length _ _
      | n + 3 => simp at hl
    have hlen := pickBlocks_flatten_length hind _ _ hbs
    rw [hlen]
    simp only [containerCommonCount, heq]
    simp [List.enum_length, hseq, Nat.mul_comm]
  next => cases h

theorem buildContainers_flatten_length {summary : List SummaryRow}
    {traces : Int → List Mat} :
    ∀ (es : List Int) (bs : List Mat),
      buildContainers summary traces es = some bs →
      bs.flatten.length = 3 * ((es.map (containerCommonCount summary)).sum) := by
  intro es
  induction es with
  | nil =>
    intro bs h
    simp only [buildContainers, Option.some.injEq] at h
    subst h; simp
  | cons e es ih =>
    intro bs h
    simp only [buildContainers, Option.bind_eq_bind, Option.bind_eq_some,
      Option.pure_def, Option.some.injEq] at h
    obtain ⟨b, hb, bs', hbs', rfl⟩ := h
    simp only [List.flatten_cons, List.length_append, List.map_cons,
      List.sum_cons, containerPseudo_length hb, ih _ hbs']
    ring

theorem vconcat_eq_flatten {bs : List Mat} {M : Mat}
    (h : vconcat bs = some M) : M = bs.flatten := by
  unfold vconcat at h
  split at h
  · cases h
  · split at h
    · cases h; rfl
    · cases h

/-- Conditional on a successful build, the pseudo-population matrix of the
aligned (train/test) variant has `3 × Σ |CommonNeuronSet|` rows: each of
the three sessions of every included container contributes one block of
`|CommonNeuronSet|` aligned rows. -/
theorem getPseudoMice_length {summary : List SummaryRow}
    {expContainers : List Int} {area : String} {traces : Int → List Mat}
    {M : Mat} (h : getPseudoMice summary expContainers area traces = some M) :
    M.length = 3 * sumCommonCounts summary expContainers area := by
  unfold getPseudoMice at h
  simp only [Option.bind_eq_bind, Option.bind_eq_some] at h
  obtain ⟨bs, hbs, hv⟩ := h
  rw [vconcat_eq_flatten hv]
  exact buildContainers_flatten_length _ _ hbs

/-! ## TemporalSplitter and dataset construction

`AllenCaMoviesDataset.__init__` / `_split`.  The time axis is cut into ten
stimulus-repeat blocks of `⌊T/10⌋` columns; a 1-based `test_repeat` selects
the held-out block. -/

/-- `int(pseudo_mice.shape[1] / 10)`: one repeat's column count. -/
def movieLen (T : Nat) : Nat := T / 10

/-- Repeat block `i` (0-based) of one matrix row: columns
`[i·len, (i+1)·len)`. -/
def blockSlice (row : List Int) (i len : Nat) : List Int :=
  (row.drop (i * len)).take len

/-- The test branch of `_split`: columns
`[(test_repeat−1)·movie_len, test_repeat·movie_len)` of one row. -/
def testSlice (row : List Int) (r len : Nat) : List Int :=
  (row.drop ((r - 1) * len)).take len

/-- Modelled from the spec: the train branch of `_split` (its slicing
expression is not present under `src/`) — "the remaining nine repeat
blocks concatenated in original chronological order": columns
`[0, (r−1)·len)` followed by columns `[r·len, 10·len)`. -/
def trainSlice (row : List Int) (r len : Nat) : List Int :=
  row.take ((r - 1) * len) ++ (row.drop (r * len)).take ((10 - r) * len)

/-- `neural.T` for a row-major array whose tracked second shape dimension
is `ncols` (numpy keeps the column count in the shape even when the array
has zero rows). -/
def transposeMat (m : Mat) (ncols : Nat) : Mat :=
  (List.range ncols).map (fun j => m.map (fun row => row.getD j 0))

/-- `frame_feature.repeat (n, 1)`: the label table tiled `n` times along
the row axis. -/
def repeatRows (n : Nat) (ff : Mat) : Mat :=
  (List.replicate n ff).flatten

/-- The constructed facade state: the `(time × neuron)` neural tensor and
the row-aligned label tensor. -/
structure BuiltDataset where
  neural : Mat
  index : Mat
deriving Repr, DecidableEq

/-- `__len__`: `self.neural.size(0)`. -/
def datasetLen (d : BuiltDataset) : Nat := d.neural.length

/-- `_split(pseudo_mice, frame_feature)`: select the sampled neuron rows,
cut out the train or test column block, transpose to `(time, neuron)`
layout, and tile the labels 9× (train) or 1× (test).  Any other
`split_flag` raises `ValueError`. -/
def splitDataset (M : Mat) (sampled : List Nat) (ff : Mat)
    (splitFlag : String) (testRepeat T : Nat) : Except String BuiltDataset :=
  let len := movieLen T
  let sel := sampled.map (fun j => M.getD j [])
  if splitFlag = "train" then
    .ok ⟨transposeMat (sel.map (fun row => trainSlice row testRepeat len))
          (9 * len),
        repeatRows 9 ff⟩
  else if splitFlag = "test" then
    .ok ⟨transposeMat (sel.map (fun row => testSlice row testRepeat len))
          len,
        repeatRows 1 ff⟩
  else .error "split_flag should be either train or test"

/-- `AllenCaMoviesDataset.__init__` with `preload=None`: build the
pseudomouse matrix, compute `movie_len`, sample the neuron subset with the
seeded generator, and split.  A failure while assembling the pseudomouse
matrix aborts construction before any tensor exists. -/
def buildDataset (summary : List SummaryRow) (expContainers : List Int)
    (area : String) (traces : Int → List Mat) (ff : Mat)
    (numNeurons seed : Nat) (splitFlag : String) (testRepeat : Nat) :
    Except String BuiltDataset :=
  match getPseudoMice summary expContainers area traces with
  | none => .error "pseudomouse assembly failed"
  | some M =>
    let T := (M.getD 0 []).length
    let sampled := sampleNeurons seed numNeurons M
    splitDataset M sampled ff splitFlag testRepeat T

/-! ## Disjoint-variant pseudo-population

`AllenCaMoviesDisjointDataset._get_pseudo_mice`: one session's trace
matrix per container (`_get_neural_data` selects the session addressed by
the movie number; modelled here as the session index `pick`), vertically
stacked with `np.vstack` — no summary table, no cre-line filter, and no
common-neuron computation are involved. -/

/-- `_get_neural_data(num_movie, mat_file)`: the single session matrix the
mat-file indexing selects for the requested movie (the exact
`mat_index`/`mat_key` arithmetic is partly absent from `src/`; modelled
from the spec as selecting one session, index `pick`, per container). -/
def getNeuralData (sessions : List Mat) (pick : Nat) : Mat :=
  sessions.getD pick []

/-- `np.vstack([_get_neural_data(num_movie, mice) for mice in list_mice])`. -/
def disjointGetPseudoMice (containers : List (List Mat)) (pick : Nat) :
    Option Mat :=
  vconcat (containers.map (fun s => getNeuralData s pick))

theorem flatten_map_blockSlice (row : List Int) (len : Nat) :
    ∀ (b a : Nat),
      (((List.range' a b).map (fun i => blockSlice row i len))).flatten =
        (row.drop (a * len)).take (b * len) := by
  intro b
  induction b with
  | zero => intro a; simp
  | succ b ih =>
    intro a
    rw [List.range'_succ, List.map_cons, List.flatten_cons, ih (a + 1)]
    unfold blockSlice
    rw [show (b + 1) * len = len + b * len by ring, List.take_add,
      List.drop_drop, show a * len + len = (a + 1) * len by ring]

theorem range_filter_ne (r : Nat) (h1 : 1 ≤ r) (h2 : r ≤ 10) :
    (List.range 10).filter (fun i => i != r - 1) =
      List.range' 0 (r - 1) ++ List.range' r (10 - r) := by
  interval_cases r <;> rfl

theorem trainSlice_eq_flatten_blocks (row : List Int) (r len : Nat)
    (h1 : 1 ≤ r) (h2 : r ≤ 10) :
    trainSlice row r len =
      (((List.range 10).filter (fun i => i != r - 1)).map
        (fun i => blockSlice row i len)).flatten := by
  rw [range_filter_ne r h1 h2, List.map_append, List.flatten_append,
    flatten_map_blockSlice, flatten_map_blockSlice]
  unfold trainSlice
  rw [Nat.zero_mul, List.drop_zero]

theorem testSlice_length (row : List Int) (r T : Nat)
    (h1 : 1 ≤ r) (h2 : r ≤ 10) (hrow : row.length = T) :
    (testSlice row r (movieLen T)).length = movieLen T := by
  have h10 : 10 * movieLen T ≤ T := by
    have := Nat.div_mul_le_self T 10
    unfold movieLen; omega
  have ha : (r - 1) * movieLen T + movieLen T = r * movieLen T := by
    rw [show (r - 1) * movieLen T + movieLen T = (r - 1 + 1) * movieLen T by
      ring]
    congr 1; omega
  have hb : r * movieLen T ≤ 10 * movieLen T :=
    Nat.mul_le_mul_right _ h2
  simp only [testSlice, List.length_take, List.length_drop, hrow]
  omega

theorem trainSlice_length (row : List Int) (r T : Nat)
    (h1 : 1 ≤ r) (h2 : r ≤ 10) (hrow : row.length = T) :
    (trainSlice row r (movieLen T)).length = 9 * movieLen T := by
  have h10 : 10 * movieLen T ≤ T := by
    have := Nat.div_mul_le_self T 10
    unfold movieLen; omega
  have ha : (r - 1) * movieLen T + movieLen T = r * movieLen T := by
    rw [show (r - 1) * movieLen T + movieLen T = (r - 1 + 1) * movieLen T by
      ring]
    congr 1; omega
  have hb : r * movieLen T ≤ 10 * movieLen T :=
    Nat.mul_le_mul_right _ h2
  have hc : (10 - r) * movieLen T + r * movieLen T = 10 * movieLen T := by
    rw [← Nat.add_mul]; congr 1; omega
  have hd : (r - 1) * movieLen T + (10 - r) * movieLen T = 9 * movieLen T := by
    rw [← Nat.add_mul]; congr 1; omega
  simp only [trainSlice, List.length_append, List.length_take,
    List.length_drop, hrow]
  omega

theorem transposeMat_length (m : Mat) (ncols : Nat) :
    (transposeMat m ncols).length = ncols := by
  simp [transposeMat]

theorem repeatRows_length (n : Nat) (ff : Mat) :
    (repeatRows n ff).length = n * ff.length := by
  simp [repeatRows]

/-! ## Concrete instances used by counterexamples and witnesses -/

/-- Three well-formed summary rows for container 1: sessions tagged A, B, C,
all with neuron-id list `[1, 2]` and a non-excluded cre line. -/
def exSummary : List SummaryRow :=
  [⟨1, "VISp", "Cux2-CreERT2", "A", [1, 2]⟩,
   ⟨1, "VISp", "Cux2-CreERT2", "B", [1, 2]⟩,
   ⟨1, "VISp", "Cux2-CreERT2", "C", [1, 2]⟩]

/-- Three `2 × 2` session trace matrices for container 1. -/
def exTraces : Int → List Mat := fun e =>
  if e = 1 then
    [[[10, 20], [30, 40]], [[11, 21], [31, 41]], [[12, 22], [32, 42]]]
  else []

/-- Summary whose middle row (session B of container 1) carries an excluded
cre line; its neuron-id list is `[1, 2]`. -/
def claim3SummaryA : List SummaryRow :=
  [⟨1, "VISp", "Cux2-CreERT2", "A", [1, 2]⟩,
   ⟨1, "VISp", "SSt-IRES-Cre", "B", [1, 2]⟩,
   ⟨1, "VISp", "Cux2-CreERT2", "C", [1, 2]⟩]

/-- Identical to `claim3SummaryA` except that the excluded row's neuron-id
list is `[1]`: if excluded rows never contributed, both summaries would
assemble the same matrix. -/
def claim3SummaryB : List SummaryRow :=
  [⟨1, "VISp", "Cux2-CreERT2", "A", [1, 2]⟩,
   ⟨1, "VISp", "SSt-IRES-Cre", "B", [1]⟩,
   ⟨1, "VISp", "Cux2-CreERT2", "C", [1, 2]⟩]

/-! ## Claim C1 -/

/-- C1 fails on the code: the three position lists are each sorted
independently after being built, so position 0 of session 1's list points
at neuron id 5 while position 0 of session 2's list points at neuron id 2
— the lists do not share one neuron ordering. -/
theorem claim1_counterexample :
    (positionList [5, 2] (commonNeurons [5, 2] [2, 5] [2, 5])).length = 2 ∧
    (positionList [2, 5] (commonNeurons [5, 2] [2, 5] [2, 5])).length = 2 ∧
    ([5, 2] : List Int).getD
        ((positionList [5, 2] (commonNeurons [5, 2] [2, 5] [2, 5])).getD 0 0)
        0 ≠
      ([2, 5] : List Int).getD
        ((positionList [2, 5] (commonNeurons [5, 2] [2, 5] [2, 5])).getD 0 0)
        0 := by
  decide

/-- C1 (amended): each of the three derived position lists has length
`|CommonNeuronSet|` and is sorted ascending — a fixed deterministic order
given the session id lists — but position `i` of different lists need not
refer to the same logical neuron. -/
theorem claim1_amended_position_lists (n1 n2 n3 : List Int) :
    (positionList n1 (commonNeurons n1 n2 n3)).length =
        (commonNeurons n1 n2 n3).length ∧
    (positionList n2 (commonNeurons n1 n2 n3)).length =
        (commonNeurons n1 n2 n3).length ∧
    (positionList n3 (commonNeurons n1 n2 n3)).length =
        (commonNeurons n1 n2 n3).length ∧
    (positionList n1 (commonNeurons n1 n2 n3)).Sorted (· ≤ ·) ∧
    (positionList n2 (commonNeurons n1 n2 n3)).Sorted (· ≤ ·) ∧
    (positionList n3 (commonNeurons n1 n2 n3)).Sorted (· ≤ ·) :=
  ⟨positionList_length _ _, positionList_length _ _, positionList_length _ _,
    positionList_sorted _ _, positionList_sorted _ _, positionList_sorted _ _⟩

/-! ## Claim C2 -/

/-- C2 fails on the code: a single container whose common-neuron set has
size 2 contributes `3 × 2 = 6` rows (one block per session), not 2 — the
total row count is not `Σ |CommonNeuronSet|`. -/
theorem claim2_counterexample :
    getPseudoMice exSummary [1] "VISp" exTraces =
      some [[10, 20], [30, 40], [11, 21], [31, 41], [12, 22], [32, 42]] ∧
    sumCommonCounts exSummary [1] "VISp" = 2 ∧
    (getPseudoMice exSummary [1] "VISp" exTraces).map
        (fun M => M.length) ≠
      some (sumCommonCounts exSummary [1] "VISp") := by
  refine ⟨by decide, by decide, by decide⟩

/-- C2 (amended): for every successful assembly, the pseudo-population
matrix has `3 × Σ |CommonNeuronSet|` rows — each included container
contributes one `|CommonNeuronSet|`-row block per session, and there are
three sessions. -/
theorem claim2_amended_row_count {summary : List SummaryRow} {ec : List Int}
    {area : String} {traces : Int → List Mat} {M : Mat}
    (h : getPseudoMice summary ec area traces = some M) :
    M.length = 3 * sumCommonCounts summary ec area :=
  getPseudoMice_length h

theorem claim2_amended_row_count_witness :
    ([[10, 20], [30, 40], [11, 21], [31, 41], [12, 22], [32, 42]] :
        Mat).length = 3 * sumCommonCounts exSummary [1] "VISp" :=
  @claim2_amended_row_count exSummary [1] "VISp" exTraces
    [[10, 20], [30, 40], [11, 21], [31, 41], [12, 22], [32, 42]] (by decide)

/-! ## Claim C3 -/

/-- C3 fails on the code: the cre-line filter only decides *which
containers* are iterated; inside the loop the per-container session rows
are read from the **unfiltered** summary, so an excluded row of an included
container does feed the common-neuron computation.  The two summaries below
differ only in the neuron-id list of a row whose cre line contains `SSt`,
yet they assemble different matrices. -/
theorem claim3_counterexample :
    creExcluded "SSt-IRES-Cre" = true ∧
    getPseudoMice claim3SummaryA [1] "VISp" exTraces ≠
      getPseudoMice claim3SummaryB [1] "VISp" exTraces := by
  refine ⟨by decide, by decide⟩

theorem mem_areaFiltered_not_excluded {summary : List SummaryRow}
    {ec : List Int} {area : String} {r : SummaryRow}
    (h : r ∈ areaFiltered summary ec area) :
    r ∈ summary ∧ creExcluded r.cre_line = false := by
  rw [areaFiltered, List.mem_filter] at h
  refine ⟨h.1, ?_⟩
  have := h.2
  simp only [Bool.and_eq_true, Bool.not_eq_true'] at this
  exact this.2

theorem not_mem_includedExps {summary : List SummaryRow} {ec : List Int}
    {area : String} {e : Int}
    (hexcl : ∀ r ∈ summary, r.exp = e → creExcluded r.cre_line = true) :
    e ∉ includedExps summary ec area := by
  intro hmem
  rw [includedExps, List.mem_dedup, List.mem_map] at hmem
  obtain ⟨r, hr, hre⟩ := hmem
  obtain ⟨hrs, hrex⟩ := mem_areaFiltered_not_excluded hr
  rw [hexcl r hrs hre] at hrex
  cases hrex

theorem areaFiltered_erase_excluded {summary : List SummaryRow}
    {ec : List Int} {area : String} {e : Int}
    (hexcl : ∀ r ∈ summary, r.exp = e → creExcluded r.cre_line = true) :
    areaFiltered (summary.filter (fun r => !(r.exp == e))) ec area =
      areaFiltered summary ec area := by
  unfold areaFiltered
  rw [List.filter_filter]
  apply List.filter_congr
  intro r hr
  by_cases hre : r.exp = e
  · have : creExcluded r.cre_line = true := hexcl r hr hre
    simp [this]
  · simp [hre]

theorem containerRows_erase_excluded (summary : List SummaryRow)
    (e e' : Int) (hne : e' ≠ e) :
    containerRows (summary.filter (fun r => !(r.exp == e))) e' =
      containerRows summary e' := by
  unfold containerRows
  rw [List.filter_filter]
  apply List.filter_congr
  intro r _
  by_cases hre : r.exp = e'
  · simp [hre, hne]
  · simp [hre]

theorem containerPseudo_congr {s1 s2 : List SummaryRow} (traces : List Mat)
    (e' : Int) (h : containerRows s1 e' = containerRows s2 e') :
    containerPseudo s1 traces e' = containerPseudo s2 traces e' := by
  unfold containerPseudo
  rw [h]

theorem buildContainers_congr {s1 s2 : List SummaryRow}
    {traces : Int → List Mat} :
    ∀ es : List Int,
      (∀ x ∈ es, containerPseudo s1 (traces x) x =
        containerPseudo s2 (traces x) x) →
      buildContainers s1 traces es = buildContainers s2 traces es := by
  intro es h
  induction es with
  | nil => rfl
  | cons e es ih =>
    simp only [buildContainers]
    rw [h e (List.mem_cons_self e es),
      ih (fun x hx => h x (List.mem_cons_of_mem _ hx))]

/-- C3 (amended): an excluded row can only prevent a container from being
included; a container **none** of whose summary rows passes the cre-line
filter is not iterated at all, and deleting its rows from the table leaves
the assembled pseudo-population matrix unchanged (it contributes zero
rows).  For an *included* container, however, the common-neuron
computation reads the unfiltered table (see the counterexample). -/
theorem claim3_amended_excluded_container {summary : List SummaryRow}
    {ec : List Int} {area : String} {traces : Int → List Mat} {e : Int}
    (hexcl : ∀ r ∈ summary, r.exp = e → creExcluded r.cre_line = true) :
    e ∉ includedExps summary ec area ∧
    getPseudoMice (summary.filter (fun r => !(r.exp == e))) ec area traces =
      getPseudoMice summary ec area traces := by
  refine ⟨not_mem_includedExps hexcl, ?_⟩
  unfold getPseudoMice
  have hinc : includedExps (summary.filter (fun r => !(r.exp == e))) ec area =
      includedExps summary ec area := by
    unfold includedExps
    rw [areaFiltered_erase_excluded hexcl]
  rw [hinc]
  have hbc : buildContainers (summary.filter (fun r => !(r.exp == e))) traces
      (includedExps summary ec area) =
      buildContainers summary traces (includedExps summary ec area) := by
    apply buildContainers_congr
    intro x hx
    apply containerPseudo_congr
    apply containerRows_erase_excluded
    intro hxe
    exact not_mem_includedExps hexcl (hxe ▸ hx)
  rw [hbc]

/-- `exSummary` (the three valid rows of container 1) extended with one row
for container 2 whose cre line carries an excluded marker — the spec's
"table whose only row for a container is excluded". -/
def claim3WitnessSummary : List SummaryRow :=
  exSummary ++ [⟨2, "VISp", "SSt-IRES-Cre", "A", [3, 4]⟩]

theorem claim3_amended_excluded_container_witness :
    (∀ r ∈ claim3WitnessSummary, r.exp = 2 →
      creExcluded r.cre_line = true) ∧
    (claim3WitnessSummary.filter (fun r => !(r.exp == 2))).length <
      claim3WitnessSummary.length ∧
    (getPseudoMice claim3WitnessSummary [1, 2] "VISp" exTraces).isSome =
      true ∧
    2 ∉ includedExps claim3WitnessSummary [1, 2] "VISp" ∧
    getPseudoMice (claim3WitnessSummary.filter (fun r => !(r.exp == 2)))
        [1, 2] "VISp" exTraces =
      getPseudoMice claim3WitnessSummary [1, 2] "VISp" exTraces :=
  ⟨by decide, by decide, by decide,
    @claim3_amended_excluded_container claim3WitnessSummary [1, 2] "VISp"
      exTraces 2 (by decide)⟩

/-! ## Claim C4 -/

set_option maxRecDepth 100000

/-- C4: the temporal split computes `repeat_len = ⌊T/10⌋` (the remainder
is discarded, not an error), the test block is the column slice
`[(r−1)·repeat_len, r·repeat_len)` — repeat block `r−1` — and the train
block is the remaining nine repeat blocks concatenated in original
chronological order (so it has `9·repeat_len` columns); in particular for
`T = 1000` and `r = 10`, test = columns `[900, 1000)` and train =
columns `[0, 900)`. -/
theorem claim4_temporal_split (row : List Int) (r T : Nat)
    (h1 : 1 ≤ r) (h2 : r ≤ 10) (hrow : row.length = T) :
    movieLen T = T / 10 ∧
    testSlice row r (movieLen T) = blockSlice row (r - 1) (movieLen T) ∧
    (testSlice row r (movieLen T)).length = movieLen T ∧
    trainSlice row r (movieLen T) =
      (((List.range 10).filter (fun i => i != r - 1)).map
        (fun i => blockSlice row i (movieLen T))).flatten ∧
    (trainSlice row r (movieLen T)).length = 9 * movieLen T ∧
    testSlice ((List.range 1000).map Int.ofNat) 10 (movieLen 1000) =
      (List.range' 900 100).map Int.ofNat ∧
    trainSlice ((List.range 1000).map Int.ofNat) 10 (movieLen 1000) =
      (List.range 900).map Int.ofNat :=
  ⟨rfl, rfl, testSlice_length row r T h1 h2 hrow,
    trainSlice_eq_flatten_blocks row r (movieLen T) h1 h2,
    trainSlice_length row r T h1 h2 hrow, by decide, by decide⟩

theorem claim4_temporal_split_witness :
    ((List.range 1000).map Int.ofNat).length = 1000 ∧
    (testSlice ((List.range 1000).map Int.ofNat) 10 (movieLen 1000)).length =
      movieLen 1000 ∧
    (trainSlice ((List.range 1000).map Int.ofNat) 10 (movieLen 1000)).length =
      9 * movieLen 1000 :=
  ⟨by simp,
    (claim4_temporal_split ((List.range 1000).map Int.ofNat) 10 1000
      (by norm_num) (by norm_num) (by simp)).2.2.1,
    (claim4_temporal_split ((List.range 1000).map Int.ofNat) 10 1000
      (by norm_num) (by norm_num) (by simp)).2.2.2.2.1⟩

/-! ## Claim C5 -/

/-- C5: after construction, the train split's label tensor has exactly
`9 × repeat_len` rows and the test split's exactly `1 × repeat_len`, and in
both splits the label row count equals the neural tensor's row count
(`__len__`), provided the externally supplied frame-feature table has one
row per repeat frame. -/
theorem claim5_label_row_alignment (M : Mat) (sampled : List Nat) (ff : Mat)
    (r T : Nat) (hff : ff.length = movieLen T) :
    ∀ dtr dte, splitDataset M sampled ff "train" r T = Except.ok dtr →
      splitDataset M sampled ff "test" r T = Except.ok dte →
      dtr.index.length = 9 * movieLen T ∧
      dte.index.length = 1 * movieLen T ∧
      datasetLen dtr = dtr.index.length ∧
      datasetLen dte = dte.index.length := by
  intro dtr dte htr hte
  unfold splitDataset at htr hte
  rw [if_pos rfl] at htr
  rw [if_neg (by decide), if_pos rfl] at hte
  cases htr
  cases hte
  refine ⟨?_, ?_, ?_, ?_⟩ <;>
    simp [datasetLen, repeatRows_length, transposeMat_length, hff]

theorem claim5_label_row_alignment_witness :
    ([[7]] : Mat).length = movieLen 10 ∧
    (∀ dtr dte,
      splitDataset [[1, 2, 3, 4, 5, 6, 7, 8, 9, 10]] [0] [[7]] "train" 10 10 =
        Except.ok dtr →
      splitDataset [[1, 2, 3, 4, 5, 6, 7, 8, 9, 10]] [0] [[7]] "test" 10 10 =
        Except.ok dte →
      dtr.index.length = 9 * movieLen 10 ∧
      dte.index.length = 1 * movieLen 10 ∧
      datasetLen dtr = dtr.index.length ∧
      datasetLen dte = dte.index.length) :=
  ⟨by decide,
    claim5_label_row_alignment [[1, 2, 3, 4, 5, 6, 7, 8, 9, 10]] [0] [[7]]
      10 10 (by decide)⟩

/-! ## Claim C6 -/

/-- C6: the with-replacement neuron choice is deterministic in
`(seed, N, k)`: the generator is freshly seeded from `seed` on every
invocation and the population enters only through its size, so two
invocations on matrices with the same row count produce bit-identical
index sequences. -/
theorem claim6_choice_deterministic (seed k : Nat) (M1 M2 : Mat)
    (h : M1.length = M2.length) :
    sampleNeurons seed k M1 = sampleNeurons seed k M2 := by
  unfold sampleNeurons
  rw [h]

theorem claim6_choice_deterministic_witness :
    ([[1], [2]] : Mat).length = ([[5, 6], [7, 8]] : Mat).length ∧
    sampleNeurons 42 3 [[1], [2]] = sampleNeurons 42 3 [[5, 6], [7, 8]] :=
  ⟨by decide, claim6_choice_deterministic 42 3 [[1], [2]] [[5, 6], [7, 8]]
    (by decide)⟩

/-! ## Claim C7 -/

/-- C7: the disjoint permutation split yields, for groups 0 and 1,
disjoint index sets of size at most `k` whose union has size at most `N`:
the two groups are prefixes of the two halves of one seeded permutation of
`[0, N)`. -/
theorem claim7_disjoint_groups (seed N k : Nat) :
    List.Disjoint (disjointSampleNeurons seed N k 0)
      (disjointSampleNeurons seed N k 1) ∧
    (disjointSampleNeurons seed N k 0).length ≤ k ∧
    (disjointSampleNeurons seed N k 1).length ≤ k ∧
    (disjointSampleNeurons seed N k 0 ++
      disjointSampleNeurons seed N k 1).toFinset.card ≤ N := by
  have ha : disjointSampleNeurons seed N k 0 =
      ((npPermutation seed N).take
        (((npPermutation seed N).length + 1) / 2)).take k := rfl
  have hb : disjointSampleNeurons seed N k 1 =
      ((npPermutation seed N).drop
        (((npPermutation seed N).length + 1) / 2)).take k := rfl
  have hsub : List.Sublist
      (disjointSampleNeurons seed N k 0 ++ disjointSampleNeurons seed N k 1)
      (npPermutation seed N) := by
    rw [ha, hb]
    have := List.Sublist.append
      (List.take_sublist k ((npPermutation seed N).take
        (((npPermutation seed N).length + 1) / 2)))
      (List.take_sublist k ((npPermutation seed N).drop
        (((npPermutation seed N).length + 1) / 2)))
    rwa [List.take_append_drop] at this
  have hnodup : (disjointSampleNeurons seed N k 0 ++
      disjointSampleNeurons seed N k 1).Nodup :=
    (npPermutation_nodup seed N).sublist hsub
  refine ⟨(List.nodup_append.mp hnodup).2.2, ?_, ?_, ?_⟩
  · rw [ha]; exact List.length_take_le _ _
  · rw [hb]; exact List.length_take_le _ _
  · calc (disjointSampleNeurons seed N k 0 ++
        disjointSampleNeurons seed N k 1).toFinset.card
        ≤ (disjointSampleNeurons seed N k 0 ++
            disjointSampleNeurons seed N k 1).length := List.toFinset_card_le _
      _ ≤ (npPermutation seed N).length := hsub.length_le
      _ = N := npPermutation_length seed N

/-! ## Claim C8 -/

/-- C8 fails on the code: neither sampler validates the requested sample
size.  With `k = 5 > N = 2` the with-replacement choice succeeds and
returns a full 5-element sample (all indices below 2, so with forced
duplicates), and with `k = 10` exceeding the half size 2 the disjoint
split silently returns just the 2-element half — no `ConfigurationError`
(or any error) is raised on either path. -/
theorem claim8_counterexample :
    (withReplacementChoice 7 2 5).length = 5 ∧
    (∀ x ∈ withReplacementChoice 7 2 5, x < 2) ∧
    (disjointSampleNeurons 11 4 10 0).length = 2 ∧
    (disjointSampleNeurons 11 4 10 1).length = 2 := by
  refine ⟨by decide, by decide, by decide, by decide⟩

/-- C8 (amended): no sample-size validation exists: for every `k` the
with-replacement choice returns exactly `k` indices drawn from `[0, N)`,
and the disjoint split returns the first `min k half` elements of its
group's half — both succeed even when `k` exceeds the population. -/
theorem claim8_amended_no_validation (seed N k : Nat) (hN : 0 < N) :
    (withReplacementChoice seed N k).length = k ∧
    (∀ x ∈ withReplacementChoice seed N k, x < N) ∧
    (disjointSampleNeurons seed N k 0).length = min k ((N + 1) / 2) ∧
    (disjointSampleNeurons seed N k 1).length = min k (N - (N + 1) / 2) := by
  refine ⟨choiceAux_length k _ N, choiceAux_lt k _ N hN, ?_, ?_⟩
  · have ha : disjointSampleNeurons seed N k 0 =
        ((npPermutation seed N).take
          (((npPermutation seed N).length + 1) / 2)).take k := rfl
    rw [ha, List.length_take, List.length_take, npPermutation_length]
    omega
  · have hb : disjointSampleNeurons seed N k 1 =
        ((npPermutation seed N).drop
          (((npPermutation seed N).length + 1) / 2)).take k := rfl
    rw [hb, List.length_take, List.length_drop, npPermutation_length]

theorem claim8_amended_no_validation_witness :
    0 < 2 ∧
    (withReplacementChoice 7 2 5).length = 5 ∧
    (∀ x ∈ withReplacementChoice 7 2 5, x < 2) ∧
    (disjointSampleNeurons 7 2 5 0).length = min 5 ((2 + 1) / 2) ∧
    (disjointSampleNeurons 7 2 5 1).length = min 5 (2 - (2 + 1) / 2) :=
  ⟨by decide, claim8_amended_no_validation 7 2 5 (by decide)⟩

/-! ## Claim C9 -/

/-- C9: for every split selector other than `"train"` or `"test"`, the
split raises `ValueError("split_flag should be either train or test")`
and dataset construction (from source, `preload=None`) never yields a
built dataset — no neural/label tensors are produced. -/
theorem claim9_invalid_split_selector (flag : String)
    (h1 : flag ≠ "train") (h2 : flag ≠ "test")
    (M : Mat) (sampled : List Nat) (ff : Mat) (r T : Nat)
    (summary : List SummaryRow) (ec : List Int) (area : String)
    (traces : Int → List Mat) (nn seed : Nat) :
    splitDataset M sampled ff flag r T =
      Except.error "split_flag should be either train or test" ∧
    ∀ d, buildDataset summary ec area traces ff nn seed flag r ≠
      Except.ok d := by
  constructor
  · unfold splitDataset
    rw [if_neg h1, if_neg h2]
  · intro d hd
    unfold buildDataset at hd
    split at hd
    · cases hd
    · unfold splitDataset at hd
      rw [if_neg h1, if_neg h2] at hd
      cases hd

theorem claim9_invalid_split_selector_witness :
    ("validation" ≠ "train" ∧ "validation" ≠ "test") ∧
    (splitDataset [[1]] [0] [[2]] "validation" 10 1 =
        Except.error "split_flag should be either train or test" ∧
      ∀ d, buildDataset exSummary [1] "VISp" exTraces [[2]] 2 42
        "validation" 10 ≠ Except.ok d) :=
  ⟨⟨by decide, by decide⟩,
    claim9_invalid_split_selector "validation" (by decide) (by decide)
      [[1]] [0] [[2]] 10 1 exSummary [1] "VISp" exTraces 2 42⟩

/-! ## Claim C10 -/

/-- C10: the disjoint-variant pseudo-population matrix is the vertical
stack of exactly one session's trace matrix per container — built with no
summary table, no cre-line filter and no common-neuron computation — and
on success its row count is the sum over containers of that single
session's neuron count. -/
theorem claim10_disjoint_stacking (containers : List (List Mat))
    (pick : Nat) :
    ∀ M, disjointGetPseudoMice containers pick = some M →
      M.length =
        (containers.map (fun s => (getNeuralData s pick).length)).sum := by
  intro M h
  unfold disjointGetPseudoMice at h
  rw [vconcat_eq_flatten h, List.length_flatten, List.map_map]
  rfl

theorem claim10_disjoint_stacking_witness :
    disjointGetPseudoMice [[[[1, 2]], [[3, 4]]], [[[5, 6]]]] 0 =
      some [[1, 2], [5, 6]] ∧
    ([[1, 2], [5, 6]] : Mat).length =
      (([[[[1, 2]], [[3, 4]]], [[[5, 6]]]] : List (List Mat)).map
        (fun s => (getNeuralData s 0).length)).sum :=
  ⟨by decide,
    claim10_disjoint_stacking [[[[1, 2]], [[3, 4]]], [[[5, 6]]]] 0
      [[1, 2], [5, 6]] (by decide)⟩
